import Mathlib

set_option maxHeartbeats 1000000
set_option maxRecDepth 8192

/-! Shallow embedding of the psarcfs archive reader (src/main.rs).
Byte sources are modelled as `List Nat`; the external zlib / lzma
decompressors (flate2, lzma_rs crates) are modelled as function
parameters returning the produced plaintext together with the number
of source bytes consumed, or a failure. -/

inductive CompressionType where
  | none
  | zlib
  | lzma
deriving DecidableEq

inductive ArchiveFlags where
  | relativePaths
  | ignoreCase
  | absolutePaths
  | unknown
deriving DecidableEq

inductive BlockSizeType where
  | U16
  | U24
  | U32
deriving DecidableEq

/-- `BlockSizeType::get_bytecount` from the source: width in bytes of one
block-size-table element. -/
def BlockSizeType.get_bytecount : BlockSizeType → Nat
  | BlockSizeType.U16 => 2
  | BlockSizeType.U24 => 3
  | BlockSizeType.U32 => 4

/-- `BlockSizeType::get_bitcount` from the source: the uncompressed size of a
full block (note the source returns 4294967296 for `U32`). -/
def BlockSizeType.get_bitcount : BlockSizeType → Nat
  | BlockSizeType.U16 => 65536
  | BlockSizeType.U24 => 16777216
  | BlockSizeType.U32 => 4294967296

/-- `FileEntry` from the source (one 30-byte TOC record plus the name set by
the manifest parser). -/
structure FileEntry where
  name : String
  name_digest : List Nat
  index_list_size : Nat
  length : Nat
  offset : Nat
deriving DecidableEq

/-- `PSArc` from the source. -/
structure PSArc where
  version_minor : Nat
  version_major : Nat
  compression_type : CompressionType
  toc_length : Nat
  toc_entry_size : Nat
  toc_entry_count : Nat
  block_size : BlockSizeType
  archive_flags : ArchiveFlags
  entries : List FileEntry
  block_sizes : List Nat
deriving DecidableEq

/-- Result of one call to an external decompressor: produced plaintext and
number of source bytes consumed, or failure. -/
inductive DecRes where
  | ok (out : List Nat) (consumed : Nat)
  | fail
deriving DecidableEq

/-- Result of `PSArc::print_file`: produced bytes, an `IoError` return, or a
Rust panic (from `.unwrap()` / out-of-bounds indexing). -/
inductive PfResult where
  | ok (bytes : List Nat)
  | ioError
  | panicked
deriving DecidableEq

/-- The byte window `file.take n` yields starting at position `pos`. -/
def window (data : List Nat) (pos n : Nat) : List Nat :=
  (data.drop pos).take n

/-- The codec detection match in `print_file` (lines 223-234 of the source):
a 16-bit big-endian peek, `0x78DA`/`0x7801` means ZLIB, `0x5D00` means LZMA,
anything else means stored. -/
def detectCodec (b0 b1 : Nat) : CompressionType :=
  if b0 * 256 + b1 = 0x78da ∨ b0 * 256 + b1 = 0x7801 then CompressionType.zlib
  else if b0 * 256 + b1 = 0x5d00 then CompressionType.lzma
  else CompressionType.none

/-- `round::ceil(a / b)` on the exactly-representable inputs the source uses
(`b` is a power of two, `a < 2^40`), i.e. exact ceiling division. -/
def ceilDiv (a b : Nat) : Nat :=
  (a + b - 1) / b

/-- The ZLIB loop of `print_file` (source lines 253-263): each iteration feeds
the decoder a `take get_bitcount` window, appends its output, and returns as
soon as `bytes_written > amount` (strictly). A decoder failure is the `?` on
`io::copy`, an `IoError` return. -/
def zlibBlocks (zd : List Nat → DecRes) (bs : Nat) (data : List Nat) :
    Nat → Nat → Nat → Nat → List Nat → PfResult
  | _, 0, _, _, acc => PfResult.ok acc
  | pos, n+1, amount, written, acc =>
    match zd (window data pos bs) with
    | DecRes.fail => PfResult.ioError
    | DecRes.ok o c =>
      if amount < written + o.length then PfResult.ok (acc ++ o)
      else zlibBlocks zd bs data (pos + min c (window data pos bs).length) n
        amount (written + o.length) (acc ++ o)

/-- The LZMA loop of `print_file` (source lines 243-251): as `zlibBlocks`,
except the stop test uses the output cursor position (the accumulated length,
since callers pass a fresh cursor) and a decoder failure is hit by
`.unwrap()`, i.e. a panic. -/
def lzmaBlocks (ld : List Nat → DecRes) (bs : Nat) (data : List Nat) :
    Nat → Nat → Nat → List Nat → PfResult
  | _, 0, _, acc => PfResult.ok acc
  | pos, n+1, amount, acc =>
    match ld (window data pos bs) with
    | DecRes.fail => PfResult.panicked
    | DecRes.ok o c =>
      if amount < (acc ++ o).length then PfResult.ok (acc ++ o)
      else lzmaBlocks ld bs data (pos + min c (window data pos bs).length) n
        amount (acc ++ o)

/-- `PSArc::print_file` (source lines 214-267): seek to the entry's offset,
peek two bytes to pick the codec once, seek back, then either copy
`entry.length` bytes verbatim (stored) or run the per-codec block loop. -/
def PSArc.print_file (arc : PSArc) (zd ld : List Nat → DecRes)
    (data : List Nat) (index : Nat) (amount : Option Nat) : PfResult :=
  match arc.entries.get? index with
  | Option.none => PfResult.panicked
  | Option.some e =>
    let amt := amount.getD e.length
    let blocks := ceilDiv e.length arc.block_size.get_bitcount
    if data.length < e.offset + 2 then PfResult.ioError
    else
      match detectCodec (data.getD e.offset 0) (data.getD (e.offset + 1) 0) with
      | CompressionType.none => PfResult.ok (window data e.offset e.length)
      | CompressionType.lzma =>
        lzmaBlocks ld arc.block_size.get_bitcount data e.offset blocks amt []
      | CompressionType.zlib =>
        zlibBlocks zd arc.block_size.get_bitcount data e.offset blocks amt 0 []

/-- Modelled from the spec (section 4.2/4.3): per-block codec dispatch driven
by the block-size table. For each block, a recorded compressed size of 0
means a full stored block of `max_block_size` bytes; otherwise the block's
own first two bytes select ZLIB, LZMA or verbatim copy of the `c` recorded
bytes, and the walk stops once the written count reaches `want_len`. -/
def specBlocks (zd ld : List Nat → DecRes) (bs : Nat) (table : List Nat)
    (data : List Nat) : Nat → Nat → Nat → Nat → List Nat → PfResult
  | _, _, 0, _, acc => PfResult.ok acc
  | bi, pos, n+1, amount, acc =>
    let c := table.getD bi 0
    if c = 0 then
      let acc2 := acc ++ window data pos bs
      if amount ≤ acc2.length then PfResult.ok acc2
      else specBlocks zd ld bs table data (bi+1) (pos+bs) n amount acc2
    else
      match
        (match detectCodec (data.getD pos 0) (data.getD (pos+1) 0) with
         | CompressionType.zlib => zd (window data pos c)
         | CompressionType.lzma => ld (window data pos c)
         | CompressionType.none => DecRes.ok (window data pos c) c) with
      | DecRes.fail => PfResult.ioError
      | DecRes.ok o _ =>
        let acc2 := acc ++ o
        if amount ≤ acc2.length then PfResult.ok acc2
        else specBlocks zd ld bs table data (bi+1) (pos+c) n amount acc2

/-- Modelled from the spec: the whole-file reader as specified, walking the
entry's chain in the block-size table starting at `entry.block_index` with
per-block dispatch (`specBlocks`). -/
def printFileSpec (arc : PSArc) (zd ld : List Nat → DecRes)
    (data : List Nat) (index : Nat) (amount : Option Nat) : PfResult :=
  match arc.entries.get? index with
  | Option.none => PfResult.panicked
  | Option.some e =>
    let amt := amount.getD e.length
    let blocks := ceilDiv e.length arc.block_size.get_bitcount
    specBlocks zd ld arc.block_size.get_bitcount arc.block_sizes data
      e.index_list_size e.offset blocks amt []

/-- Modelled from the spec (section 4.3): the source's ZLIB loop but with the
specified stop rule "stop as soon as written ≥ want_len". -/
def zlibBlocksGe (zd : List Nat → DecRes) (bs : Nat) (data : List Nat) :
    Nat → Nat → Nat → Nat → List Nat → PfResult
  | _, 0, _, _, acc => PfResult.ok acc
  | pos, n+1, amount, written, acc =>
    match zd (window data pos bs) with
    | DecRes.fail => PfResult.ioError
    | DecRes.ok o c =>
      if amount ≤ written + o.length then PfResult.ok (acc ++ o)
      else zlibBlocksGe zd bs data (pos + min c (window data pos bs).length) n
        amount (written + o.length) (acc ++ o)

/-- Modelled from the spec (section 4.3): the source's LZMA loop but with the
specified stop rule "stop as soon as written ≥ want_len". -/
def lzmaBlocksGe (ld : List Nat → DecRes) (bs : Nat) (data : List Nat) :
    Nat → Nat → Nat → List Nat → PfResult
  | _, 0, _, acc => PfResult.ok acc
  | pos, n+1, amount, acc =>
    match ld (window data pos bs) with
    | DecRes.fail => PfResult.panicked
    | DecRes.ok o c =>
      if amount ≤ (acc ++ o).length then PfResult.ok (acc ++ o)
      else lzmaBlocksGe ld bs data (pos + min c (window data pos bs).length) n
        amount (acc ++ o)

/-- Modelled from the spec: `print_file` with the specified "stop as soon as
written ≥ want_len" rule in both block loops; all else as the source. -/
def printFileStopGe (arc : PSArc) (zd ld : List Nat → DecRes)
    (data : List Nat) (index : Nat) (amount : Option Nat) : PfResult :=
  match arc.entries.get? index with
  | Option.none => PfResult.panicked
  | Option.some e =>
    let amt := amount.getD e.length
    let blocks := ceilDiv e.length arc.block_size.get_bitcount
    if data.length < e.offset + 2 then PfResult.ioError
    else
      match detectCodec (data.getD e.offset 0) (data.getD (e.offset + 1) 0) with
      | CompressionType.none => PfResult.ok (window data e.offset e.length)
      | CompressionType.lzma =>
        lzmaBlocksGe ld arc.block_size.get_bitcount data e.offset blocks amt []
      | CompressionType.zlib =>
        zlibBlocksGe zd arc.block_size.get_bitcount data e.offset blocks amt 0 []

/-- Result of `PSArc::open`: a parsed archive, a `FormatError` or `IoError`
return, or a Rust panic. -/
inductive OpenResult where
  | ok (arc : PSArc)
  | formatError (msg : String)
  | ioError
  | panicked
deriving DecidableEq

/-- Big-endian value of a byte list. -/
def beVal (bs : List Nat) : Nat :=
  bs.foldl (fun a b => a * 256 + b) 0

/-- Read an `n`-byte big-endian integer at `pos`; `Option.none` models the
`UnexpectedEof` I/O error of a truncated read. -/
def readBE (data : List Nat) (pos n : Nat) : Option Nat :=
  if pos + n ≤ data.length then Option.some (beVal (window data pos n))
  else Option.none

/-- The TOC-entry loop of `open` (source lines 155-165): per entry a 16-byte
digest, a u32 `index_list_size`, and two 40-bit values `length`, `offset`. -/
def readEntries (data : List Nat) : Nat → Nat → Option (List FileEntry)
  | _, 0 => Option.some []
  | pos, n+1 =>
    if pos + 30 ≤ data.length then
      (readEntries data (pos + 30) n).map (fun rest =>
        { name := ""
          name_digest := window data pos 16
          index_list_size := beVal (window data (pos + 16) 4)
          length := beVal (window data (pos + 20) 5)
          offset := beVal (window data (pos + 25) 5) } :: rest)
    else Option.none

/-- The block-size-table loop of `open` (source lines 170-173): `n` values,
each `w` bytes wide, big-endian. -/
def readBlockSizes (data : List Nat) (w : Nat) : Nat → Nat → Option (List Nat)
  | _, 0 => Option.some []
  | pos, n+1 =>
    if pos + w ≤ data.length then
      (readBlockSizes data w (pos + w) n).map (fun rest =>
        beVal (window data pos w) :: rest)
    else Option.none

/-- The compression-type match of `open` (source lines 114-126). -/
def parseCompressionType (v : Nat) : OpenResult ⊕ CompressionType :=
  if v = 0 then Sum.inr CompressionType.none
  else if v = 0x7A6C6962 then Sum.inr CompressionType.zlib
  else if v = 0x6C7A6D61 then Sum.inr CompressionType.lzma
  else Sum.inl (OpenResult.formatError "Invalid compression type")

/-- The block-size-type match of `open` (source lines 131-138): note the
`U32` tag is 4294967295. -/
def parseBlockSizeType (v : Nat) : OpenResult ⊕ BlockSizeType :=
  if v = 65536 then Sum.inr BlockSizeType.U16
  else if v = 16777216 then Sum.inr BlockSizeType.U24
  else if v = 4294967295 then Sum.inr BlockSizeType.U32
  else Sum.inl (OpenResult.formatError "Invalid block size type")

/-- The archive-flags match of `open` (source lines 139-153); unknown values
are warned and downgraded to `Unknown`, never an error. -/
def parseArchiveFlags (v : Nat) : ArchiveFlags :=
  if v = 0 then ArchiveFlags.relativePaths
  else if v = 1 then ArchiveFlags.ignoreCase
  else if v = 2 then ArchiveFlags.absolutePaths
  else ArchiveFlags.unknown

/-- The header and TOC parsing part of `PSArc::open` (source lines 104-183,
before the `parse_manifest` call). The `num_blocks` subtraction is the
source's u64 wrapping subtraction. -/
def PSArc.openParse (data : List Nat) : OpenResult :=
  match readBE data 0 4 with
  | Option.none => OpenResult.ioError
  | Option.some magic =>
  if magic ≠ 0x50534152 then OpenResult.formatError "Invalid magic" else
  match readBE data 4 2, readBE data 6 2 with
  | Option.some version_major, Option.some version_minor =>
    (match readBE data 8 4 with
     | Option.none => OpenResult.ioError
     | Option.some ctv =>
     match parseCompressionType ctv with
     | Sum.inl err => err
     | Sum.inr compression_type =>
     match readBE data 12 4, readBE data 16 4, readBE data 20 4 with
     | Option.some toc_length, Option.some toc_entry_size,
       Option.some toc_entry_count =>
       (match readBE data 24 4 with
        | Option.none => OpenResult.ioError
        | Option.some bsv =>
        match parseBlockSizeType bsv with
        | Sum.inl err => err
        | Sum.inr block_size =>
        match readBE data 28 4 with
        | Option.none => OpenResult.ioError
        | Option.some afv =>
        let archive_flags := parseArchiveFlags afv
        match readEntries data 32 toc_entry_count with
        | Option.none => OpenResult.ioError
        | Option.some entries =>
        let current_pos := 32 + 30 * toc_entry_count
        let num_blocks :=
          (toc_length + 18446744073709551616 - current_pos) %
            18446744073709551616 / block_size.get_bytecount
        match readBlockSizes data block_size.get_bytecount current_pos
            num_blocks with
        | Option.none => OpenResult.ioError
        | Option.some block_sizes =>
          OpenResult.ok
            { version_minor, version_major, compression_type, toc_length,
              toc_entry_size, toc_entry_count, block_size, archive_flags,
              entries, block_sizes })
     | _, _, _ => OpenResult.ioError)
  | _, _ => OpenResult.ioError

/-- Rust `str::lines` over bytes: split at `\n` (byte 10), strip one
trailing `\r` (byte 13) from a line ended by `\n`; no trailing empty line. -/
def rustLinesAux (cur : List Nat) : List Nat → List (List Nat)
  | [] => if cur.isEmpty then [] else [cur.reverse]
  | b :: rest =>
    if b = 10 then
      (if cur.reverse.getLast? = Option.some 13 then cur.reverse.dropLast
       else cur.reverse) :: rustLinesAux [] rest
    else rustLinesAux (b :: cur) rest

/-- Rust `str::lines` over a byte string. -/
def rustLines (s : List Nat) : List (List Nat) :=
  rustLinesAux [] s

/-- Bytes to `String`, modelling `read_to_string` on ASCII content. -/
def bytesToStr (l : List Nat) : String :=
  String.mk (l.map Char.ofNat)

/-- The synthetic name of entry 0 (source lines 192-195). -/
def manifestName : ArchiveFlags → String
  | ArchiveFlags.absolutePaths => "/manifest.txt"
  | _ => "manifest.txt"

/-- The assignment loop of `parse_manifest` (source lines 197-199) in the
non-panicking case `names.length ≤ entries.length`. -/
def assignNames : List FileEntry → List String → List FileEntry
  | es, [] => es
  | [], _ => []
  | e :: es, n :: ns => { e with name := n } :: assignNames es ns

/-- `PSArc::parse_manifest` (source lines 185-201): decode entry 0 with
`print_file`, split into lines, prepend the synthetic manifest name, and
assign names positionally; an index past the entry vector is a panic. -/
def PSArc.parse_manifest (arc : PSArc) (zd ld : List Nat → DecRes)
    (data : List Nat) : OpenResult :=
  match arc.print_file zd ld data 0 Option.none with
  | PfResult.ioError => OpenResult.ioError
  | PfResult.panicked => OpenResult.panicked
  | PfResult.ok m =>
    let names := manifestName arc.archive_flags ::
      (rustLines m).map bytesToStr
    if arc.entries.length < names.length then OpenResult.panicked
    else OpenResult.ok { arc with entries := assignNames arc.entries names }

/-- `PSArc::open` (source lines 104-183): parse the header and TOC, then
run `parse_manifest`. -/
def PSArc.openArchive (zd ld : List Nat → DecRes) (data : List Nat) :
    OpenResult :=
  match PSArc.openParse data with
  | OpenResult.ok arc => arc.parse_manifest zd ld data
  | e => e

/-! The filesystem facade (`PSArcFS`, source lines 271-536). The `id_tree`
tree and the `node_ids` map are modelled together by `childrenOf`: an inode
has a tree node exactly when it has an entry there; `parentOf` gives the
immediate ancestor (absent for the root). `HashMap` fields are association
lists whose `insert` is modelled by prepending (newest binding wins for
`List.lookup`). -/

inductive InodeData where
  | folder (name : String)
  | archivedFile (name : String) (index : Nat)
deriving DecidableEq

inductive FsFileType where
  | regularFile
  | directory
deriving DecidableEq

/-- `FileAttr` as built by the source; all timestamps are the epoch,
modelled as 0. -/
structure FsAttr where
  ino : Nat
  size : Nat
  blocks : Nat
  atime : Nat
  mtime : Nat
  ctime : Nat
  ftype : FsFileType
  perm : Nat
  nlink : Nat
  uid : Nat
  gid : Nat
  rdev : Nat
deriving DecidableEq

/-- `PSArcFS` state. -/
structure PSArcFS where
  psarc : PSArc
  data : List Nat
  childrenOf : List (Nat × List Nat)
  parentOf : List (Nat × Nat)
  files : List (Nat × InodeData)
  cache : List (Nat × List Nat)
deriving DecidableEq

def ENOENT : Nat := 2

def eioCode : Nat := 5

/-- The directory attributes built in `lookup` and `getattr` (identical in
the two operations). -/
def dirAttr (ino : Nat) : FsAttr :=
  { ino, size := 0, blocks := 0, atime := 0, mtime := 0, ctime := 0,
    ftype := FsFileType.directory, perm := 0o755, nlink := 2, uid := 0,
    gid := 0, rdev := 0 }

/-- The regular-file attributes built in `lookup` (source lines 382-395):
note `perm = 0o755` and `nlink = 2`. -/
def fileAttrLookup (ino len : Nat) : FsAttr :=
  { ino, size := len, blocks := 0, atime := 0, mtime := 0, ctime := 0,
    ftype := FsFileType.regularFile, perm := 0o755, nlink := 2, uid := 0,
    gid := 0, rdev := 0 }

/-- The regular-file attributes built in `getattr` (source lines 432-445):
`perm = 0o644` and `nlink = 1`. -/
def fileAttrGetattr (ino len : Nat) : FsAttr :=
  { ino, size := len, blocks := 0, atime := 0, mtime := 0, ctime := 0,
    ftype := FsFileType.regularFile, perm := 0o644, nlink := 1, uid := 0,
    gid := 0, rdev := 0 }

inductive EntryReply where
  | entry (attrs : FsAttr)
  | error (code : Nat)
  | panicked
deriving DecidableEq

inductive AttrReply where
  | attr (attrs : FsAttr)
  | error (code : Nat)
  | panicked
deriving DecidableEq

inductive ReadReply where
  | bytes (l : List Nat)
  | error (code : Nat)
  | panicked
deriving DecidableEq

/-- The child scan of `lookup` (source lines 357-402). -/
def lookupScan (fs : PSArcFS) (name : String) : List Nat → EntryReply
  | [] => EntryReply.error ENOENT
  | k :: rest =>
    match fs.files.lookup k with
    | Option.some (InodeData.folder f) =>
      if name = f then EntryReply.entry (dirAttr k)
      else lookupScan fs name rest
    | Option.some (InodeData.archivedFile f idx) =>
      if name = f then
        match fs.psarc.entries.get? idx with
        | Option.some e => EntryReply.entry (fileAttrLookup k e.length)
        | Option.none => EntryReply.panicked
      else lookupScan fs name rest
    | Option.none => lookupScan fs name rest

/-- `PSArcFS::lookup` (source lines 354-408). -/
def PSArcFS.lookup (fs : PSArcFS) (parent : Nat) (name : String) :
    EntryReply :=
  match fs.childrenOf.lookup parent with
  | Option.some kids => lookupScan fs name kids
  | Option.none => EntryReply.error ENOENT

/-- `PSArcFS::getattr` (source lines 410-450). -/
def PSArcFS.getattr (fs : PSArcFS) (ino : Nat) : AttrReply :=
  match fs.files.lookup ino with
  | Option.some (InodeData.folder _) => AttrReply.attr (dirAttr ino)
  | Option.some (InodeData.archivedFile _ idx) =>
    match fs.psarc.entries.get? idx with
    | Option.some e => AttrReply.attr (fileAttrGetattr ino e.length)
    | Option.none => AttrReply.panicked
  | Option.none => AttrReply.error ENOENT

/-- The miss path of `PSArcFS::read` (source lines 467-489): decode via
`print_file` with `want_len = offset + size` (`.unwrap()`, so any error is
a panic), optionally populate the cache when `offset == 0` and more than
16384 bytes were produced, then slice `buf[offset..min(offset+size, len)]`
— which panics when `offset > len`. The cache insertion happens before the
slice, as in the source. -/
def PSArcFS.readMiss (fs : PSArcFS) (ino offset size : Nat)
    (zd ld : List Nat → DecRes) : ReadReply × PSArcFS :=
  match fs.files.lookup ino with
  | Option.some (InodeData.archivedFile _ idx) =>
    (match fs.psarc.print_file zd ld fs.data idx
        (Option.some (offset + size)) with
     | PfResult.ioError => (ReadReply.panicked, fs)
     | PfResult.panicked => (ReadReply.panicked, fs)
     | PfResult.ok buf =>
       let fin := min (offset + size) buf.length
       let fs2 := if offset = 0 ∧ 16384 < buf.length then
           { fs with cache := (ino, buf.take 16384) :: fs.cache }
         else fs
       if buf.length < offset then (ReadReply.panicked, fs2)
       else (ReadReply.bytes ((buf.drop offset).take (fin - offset)), fs2))
  | _ => (ReadReply.error ENOENT, fs)

/-- `PSArcFS::read` (source lines 452-489): cache fast path for
`offset == 0 ∧ size ≤ 16384`, else the miss path. -/
def PSArcFS.read (fs : PSArcFS) (ino offset size : Nat)
    (zd ld : List Nat → DecRes) : ReadReply × PSArcFS :=
  if offset = 0 ∧ size ≤ 16384 then
    match fs.cache.lookup ino with
    | Option.some cached => (ReadReply.bytes (cached.take size), fs)
    | Option.none => fs.readMiss ino offset size zd ld
  else fs.readMiss ino offset size zd ld

structure DirEntry where
  ino : Nat
  cookie : Nat
  kind : FsFileType
  name : String
deriving DecidableEq

inductive ReaddirReply where
  | entries (l : List DirEntry)
  | error (code : Nat)
deriving DecidableEq

/-- The child loop of `readdir` (source lines 521-532):
`children.enumerate().skip(offset)`, the child at global index `i` emitted
at cookie `i + 2`. -/
def readdirChildren (fs : PSArcFS) (offset : Nat) :
    List Nat → Nat → List DirEntry
  | [], _ => []
  | k :: rest, i =>
    let tail := readdirChildren fs offset rest (i + 1)
    if i < offset then tail
    else
      match fs.files.lookup k with
      | Option.some (InodeData.folder f) =>
        ⟨k, i + 2, FsFileType.directory, f⟩ :: tail
      | Option.some (InodeData.archivedFile f _) =>
        ⟨k, i + 2, FsFileType.regularFile, f⟩ :: tail
      | Option.none => tail

/-- `PSArcFS::readdir` (source lines 491-535): `.` at cookie 1 when
`offset == 0`; `..` at cookie 2 when `offset < 2` (to the parent when it is
a folder, else to the root when there is no parent); then the children. -/
def PSArcFS.readdir (fs : PSArcFS) (ino offset : Nat) : ReaddirReply :=
  match fs.childrenOf.lookup ino with
  | Option.none => ReaddirReply.error ENOENT
  | Option.some kids =>
    let dot := if offset = 0 then
        [DirEntry.mk ino 1 FsFileType.directory "."] else []
    let dotdot :=
      match fs.parentOf.lookup ino with
      | Option.some p =>
        (match fs.files.lookup p with
         | Option.some (InodeData.folder _) =>
           if offset < 2 then [DirEntry.mk p 2 FsFileType.directory ".."]
           else []
         | _ => [])
      | Option.none =>
        if offset < 2 then [DirEntry.mk 1 2 FsFileType.directory ".."]
        else []
    ReaddirReply.entries (dot ++ dotdot ++ readdirChildren fs offset kids 0)

/-- Kind used by `readdir` for an inode's payload. -/
def inodeKind : InodeData → FsFileType
  | InodeData.folder _ => FsFileType.directory
  | InodeData.archivedFile _ _ => FsFileType.regularFile

/-- Name stored in an inode's payload. -/
def inodeName : InodeData → String
  | InodeData.folder f => f
  | InodeData.archivedFile f _ => f

/-! Concrete fixtures used to settle the claims. -/

/-- A decompressor that always fails (never invoked where used). -/
def decNever : List Nat → DecRes := fun _ => DecRes.fail

/-- A decompressor producing `[42]` from any window, consuming it whole. -/
def dec42 : List Nat → DecRes := fun w => DecRes.ok [42] w.length

/-- A decompressor producing `[7, 7, 7]` from any window, consuming it
whole. -/
def dec777 : List Nat → DecRes := fun w => DecRes.ok [7, 7, 7] w.length

/-- A decompressor producing 16384 bytes from any window, consuming two
source bytes. -/
def dec16k : List Nat → DecRes := fun _ => DecRes.ok (List.replicate 16384 7) 2

/-- A decompressor producing `[7]` and consuming nothing. -/
def dec7 : List Nat → DecRes := fun _ => DecRes.ok [7] 0

/-- Two-block ZLIB-signature archive for C1: table records sizes 4 and 3,
the second block does not carry a ZLIB signature. -/
def psarcC1 : PSArc :=
  { version_minor := 1, version_major := 1,
    compression_type := CompressionType.zlib, toc_length := 0,
    toc_entry_size := 30, toc_entry_count := 1,
    block_size := BlockSizeType.U16,
    archive_flags := ArchiveFlags.relativePaths,
    entries := [⟨"", [], 0, 65537, 0⟩], block_sizes := [4, 3] }

def dataC1 : List Nat := [120, 218, 1, 2, 9, 8, 7]

/-- Single-block archive for C2 whose only block has recorded compressed
size 0 and whose entry bytes carry no codec signature. -/
def psarcC2 : PSArc :=
  { version_minor := 1, version_major := 1,
    compression_type := CompressionType.zlib, toc_length := 0,
    toc_entry_size := 30, toc_entry_count := 1,
    block_size := BlockSizeType.U16,
    archive_flags := ArchiveFlags.relativePaths,
    entries := [⟨"", [], 0, 5, 0⟩], block_sizes := [0] }

def dataC2 : List Nat := [9, 9, 9, 9, 9]

/-- Two-block ZLIB archive for C3. -/
def psarcC3 : PSArc :=
  { version_minor := 1, version_major := 1,
    compression_type := CompressionType.zlib, toc_length := 0,
    toc_entry_size := 30, toc_entry_count := 1,
    block_size := BlockSizeType.U16,
    archive_flags := ArchiveFlags.relativePaths,
    entries := [⟨"", [], 0, 65537, 0⟩], block_sizes := [] }

def dataC3 : List Nat := [120, 218, 1, 2, 3]

/-- A complete archive image whose block-width tag is 4294967295 (`U32`):
one zero-length entry at offset 62, empty block table, two padding bytes. -/
def dataC4 : List Nat :=
  [80, 83, 65, 82, 0, 1, 0, 4, 0, 0, 0, 0, 0, 0, 0, 62, 0, 0, 0, 30,
   0, 0, 0, 1, 255, 255, 255, 255, 0, 0, 0, 0] ++
  List.replicate 16 0 ++
  [0, 0, 0, 0] ++ [0, 0, 0, 0, 0] ++ [0, 0, 0, 0, 62] ++ [0, 0]

/-- The archive `openArchive` produces from `dataC4`. -/
def arcC4 : PSArc :=
  { version_minor := 4, version_major := 1,
    compression_type := CompressionType.none, toc_length := 62,
    toc_entry_size := 30, toc_entry_count := 1,
    block_size := BlockSizeType.U32,
    archive_flags := ArchiveFlags.relativePaths,
    entries := [⟨"manifest.txt", List.replicate 16 0, 0, 0, 62⟩],
    block_sizes := [] }

/-- A complete archive image for C10: one entry of length 2 at offset 62
whose (stored) content is `"a\n"`, i.e. one manifest line for a
one-entry TOC. -/
def dataC10 : List Nat :=
  [80, 83, 65, 82, 0, 1, 0, 4, 0, 0, 0, 0, 0, 0, 0, 62, 0, 0, 0, 30,
   0, 0, 0, 1, 0, 1, 0, 0, 0, 0, 0, 0] ++
  List.replicate 16 0 ++
  [0, 0, 0, 0] ++ [0, 0, 0, 0, 2] ++ [0, 0, 0, 0, 62] ++ [97, 10]

/-- The archive `openParse` produces from `dataC10`. -/
def arcC10 : PSArc :=
  { version_minor := 4, version_major := 1,
    compression_type := CompressionType.none, toc_length := 62,
    toc_entry_size := 30, toc_entry_count := 1,
    block_size := BlockSizeType.U16,
    archive_flags := ArchiveFlags.relativePaths,
    entries := [⟨"", List.replicate 16 0, 0, 2, 62⟩],
    block_sizes := [] }

/-- An archive image like `dataC10` but with an empty manifest (entry
length 0), for the fewer-lines case. -/
def dataC10b : List Nat :=
  [80, 83, 65, 82, 0, 1, 0, 4, 0, 0, 0, 0, 0, 0, 0, 62, 0, 0, 0, 30,
   0, 0, 0, 1, 0, 1, 0, 0, 0, 0, 0, 0] ++
  List.replicate 16 0 ++
  [0, 0, 0, 0] ++ [0, 0, 0, 0, 0] ++ [0, 0, 0, 0, 62] ++ [0, 0]

/-- The archive `openParse` produces from `dataC10b`. -/
def arcC10b : PSArc :=
  { version_minor := 4, version_major := 1,
    compression_type := CompressionType.none, toc_length := 62,
    toc_entry_size := 30, toc_entry_count := 1,
    block_size := BlockSizeType.U16,
    archive_flags := ArchiveFlags.relativePaths,
    entries := [⟨"", List.replicate 16 0, 0, 0, 62⟩],
    block_sizes := [] }

/-- A one-file mounted filesystem: root inode 1 with one archived file
`"f"` (inode 2, entry 0, length 5). -/
def psarcFs5 : PSArc :=
  { version_minor := 1, version_major := 1,
    compression_type := CompressionType.none, toc_length := 0,
    toc_entry_size := 30, toc_entry_count := 1,
    block_size := BlockSizeType.U16,
    archive_flags := ArchiveFlags.relativePaths,
    entries := [⟨"f", [], 0, 5, 0⟩], block_sizes := [] }

def fsC5 : PSArcFS :=
  { psarc := psarcFs5, data := [9, 9, 9, 9, 9],
    childrenOf := [(1, [2]), (2, [])], parentOf := [(2, 1)],
    files := [(1, InodeData.folder "."), (2, InodeData.archivedFile "f" 0)],
    cache := [] }

def fsC6 : PSArcFS :=
  { psarc := psarcFs5, data := [9, 9, 9, 9, 9],
    childrenOf := [(1, [2]), (2, [])], parentOf := [(2, 1)],
    files := [(1, InodeData.folder "."), (2, InodeData.archivedFile "f" 0)],
    cache := [] }

def dirListC6 : List DirEntry :=
  [⟨1, 1, FsFileType.directory, "."⟩, ⟨1, 2, FsFileType.directory, ".."⟩,
   ⟨2, 2, FsFileType.regularFile, "f"⟩]

/-- Filesystem whose entry points past the end of the archive bytes, so
`print_file` fails with an I/O error. -/
def fsC7 : PSArcFS :=
  { psarc :=
      { version_minor := 1, version_major := 1,
        compression_type := CompressionType.none, toc_length := 0,
        toc_entry_size := 30, toc_entry_count := 1,
        block_size := BlockSizeType.U16,
        archive_flags := ArchiveFlags.relativePaths,
        entries := [⟨"f", [], 0, 5, 100⟩], block_sizes := [] },
    data := [],
    childrenOf := [(1, [2]), (2, [])], parentOf := [(2, 1)],
    files := [(1, InodeData.folder "."), (2, InodeData.archivedFile "f" 0)],
    cache := [] }

/-- Filesystem whose file decodes (through the ZLIB path) to exactly 16384
plaintext bytes. -/
def fsC8 : PSArcFS :=
  { psarc :=
      { version_minor := 1, version_major := 1,
        compression_type := CompressionType.zlib, toc_length := 0,
        toc_entry_size := 30, toc_entry_count := 1,
        block_size := BlockSizeType.U16,
        archive_flags := ArchiveFlags.relativePaths,
        entries := [⟨"f", [], 0, 16384, 0⟩], block_sizes := [] },
    data := [120, 218],
    childrenOf := [(1, [2]), (2, [])], parentOf := [(2, 1)],
    files := [(1, InodeData.folder "."), (2, InodeData.archivedFile "f" 0)],
    cache := [] }

/-- Small filesystem for the C8 witness (file of length 5, stored). -/
def fsC8w : PSArcFS :=
  { psarc := psarcFs5, data := [9, 9, 9, 9, 9],
    childrenOf := [(1, [2]), (2, [])], parentOf := [(2, 1)],
    files := [(1, InodeData.folder "."), (2, InodeData.archivedFile "f" 0)],
    cache := [] }

/-- Filesystem for C9: file of length 5, archive bytes long enough that the
decode succeeds, read offset beyond the file length. -/
def fsC9 : PSArcFS :=
  { psarc := psarcFs5, data := [9, 9, 9, 9, 9, 0, 0],
    childrenOf := [(1, [2]), (2, [])], parentOf := [(2, 1)],
    files := [(1, InodeData.folder "."), (2, InodeData.archivedFile "f" 0)],
    cache := [] }

/-! Helper lemmas. -/

theorem assignNames_get?_of_le (es : List FileEntry) :
    ∀ (ns : List String) (i : Nat), ns.length ≤ i →
      (assignNames es ns).get? i = es.get? i := by
  induction es with
  | nil =>
    intro ns i _
    cases ns <;> rfl
  | cons e es ih =>
    intro ns i h
    cases ns with
    | nil => rfl
    | cons n ns =>
      cases i with
      | zero => simp at h
      | succ i => simpa [assignNames] using ih ns i (by simpa using h)

theorem readdirChildren_mem (fs : PSArcFS) (offset : Nat) :
    ∀ (kids : List Nat) (j i0 : Nat) (k : Nat) (d : InodeData),
      kids.get? j = Option.some k →
      offset ≤ i0 + j →
      fs.files.lookup k = Option.some d →
      DirEntry.mk k (i0 + j + 2) (inodeKind d) (inodeName d) ∈
        readdirChildren fs offset kids i0 := by
  intro kids
  induction kids with
  | nil =>
    intro j i0 k d h
    simp at h
  | cons k0 rest ih =>
    intro j i0 k d hget hoff hlook
    cases j with
    | zero =>
      have hk : k0 = k := by simpa using hget
      subst hk
      unfold readdirChildren
      rw [if_neg (by omega)]
      rw [hlook]
      cases d <;> simp [inodeKind, inodeName]
    | succ j =>
      have hmem := ih j (i0 + 1) k d (by simpa using hget) (by omega) hlook
      have harith : i0 + (j + 1) + 2 = i0 + 1 + j + 2 := by omega
      rw [harith]
      unfold readdirChildren
      split
      · exact hmem
      · split
        · exact List.mem_cons_of_mem _ hmem
        · exact List.mem_cons_of_mem _ hmem
        · exact hmem

/-- C1 counterexample: on a concrete ZLIB archive whose second block does
not carry a codec signature, the decoder (`print_file`) disagrees with the
per-block dispatch the claim describes (`printFileSpec`): the code feeds
every block to the ZLIB decoder because the choice is made once per entry. -/
theorem C1_counterexample :
    PSArc.print_file psarcC1 dec42 decNever dataC1 0 Option.none ≠
      printFileSpec psarcC1 dec42 decNever dataC1 0 Option.none := by
  decide

/-- C1 amended: the codec choice ignores the header codec declaration
(`print_file` is invariant under changing `compression_type`) and is made
once per call from the two bytes at the entry's offset; the selected block
loop then handles every block of the entry. -/
theorem C1_amended :
    (∀ (arc : PSArc) (ct2 : CompressionType) (zd ld : List Nat → DecRes)
        (data : List Nat) (index : Nat) (amt : Option Nat),
      PSArc.print_file { arc with compression_type := ct2 } zd ld data index
          amt =
        PSArc.print_file arc zd ld data index amt) ∧
    (∀ (arc : PSArc) (zd ld : List Nat → DecRes) (data : List Nat)
        (index : Nat) (amt : Option Nat) (e : FileEntry),
      arc.entries.get? index = Option.some e →
      e.offset + 2 ≤ data.length →
      (detectCodec (data.getD e.offset 0) (data.getD (e.offset + 1) 0) =
          CompressionType.zlib →
        PSArc.print_file arc zd ld data index amt =
          zlibBlocks zd arc.block_size.get_bitcount data e.offset
            (ceilDiv e.length arc.block_size.get_bitcount)
            (amt.getD e.length) 0 []) ∧
      (detectCodec (data.getD e.offset 0) (data.getD (e.offset + 1) 0) =
          CompressionType.lzma →
        PSArc.print_file arc zd ld data index amt =
          lzmaBlocks ld arc.block_size.get_bitcount data e.offset
            (ceilDiv e.length arc.block_size.get_bitcount)
            (amt.getD e.length) [])) := by
  constructor
  · intro arc ct2 zd ld data index amt
    cases arc
    rfl
  · intro arc zd ld data index amt e hget hlen
    unfold PSArc.print_file
    rw [hget]
    dsimp only
    rw [if_neg (by omega)]
    constructor
    · intro hdet
      rw [hdet]
    · intro hdet
      rw [hdet]

/-- C1 amended, witness: the concrete C1 fixture goes entirely through the
ZLIB loop, and its result ignores the header codec field. -/
theorem C1_amended_witness :
    (PSArc.print_file { psarcC1 with compression_type := CompressionType.lzma }
        dec42 decNever dataC1 0 Option.none =
      PSArc.print_file psarcC1 dec42 decNever dataC1 0 Option.none) ∧
    psarcC1.entries.get? 0 = Option.some ⟨"", [], 0, 65537, 0⟩ ∧
    detectCodec (dataC1.getD 0 0) (dataC1.getD 1 0) = CompressionType.zlib ∧
    PSArc.print_file psarcC1 dec42 decNever dataC1 0 Option.none =
      zlibBlocks dec42 psarcC1.block_size.get_bitcount dataC1 0
        (ceilDiv 65537 psarcC1.block_size.get_bitcount) 65537 0 [] :=
  ⟨C1_amended.1 psarcC1 CompressionType.lzma dec42 decNever dataC1 0
      Option.none,
   by decide, by decide,
   (C1_amended.2 psarcC1 dec42 decNever dataC1 0 Option.none
      ⟨"", [], 0, 65537, 0⟩ (by decide) (by decide)).1 (by decide)⟩

/-- C2 counterexample: a concrete single-block entry whose recorded
compressed size is 0 is not emitted as `max_block_size` stored bytes; the
code ignores the table and copies `entry.length` (5) bytes. -/
theorem C2_counterexample :
    PSArc.print_file psarcC2 decNever decNever dataC2 0 Option.none =
      PfResult.ok [9, 9, 9, 9, 9] ∧
    ¬ ([9, 9, 9, 9, 9].length =
        ceilDiv 5 BlockSizeType.U16.get_bitcount *
          BlockSizeType.U16.get_bitcount) := by
  decide

/-- C2 amended: the reader never consults the block-size table
(`print_file` is invariant under changing `block_sizes`), and an entry
whose first two bytes carry no codec signature is copied verbatim as
`entry.length` bytes (clipped to the available source), regardless of the
table's contents. -/
theorem C2_amended :
    (∀ (arc : PSArc) (bs2 : List Nat) (zd ld : List Nat → DecRes)
        (data : List Nat) (index : Nat) (amt : Option Nat),
      PSArc.print_file { arc with block_sizes := bs2 } zd ld data index amt =
        PSArc.print_file arc zd ld data index amt) ∧
    (∀ (arc : PSArc) (zd ld : List Nat → DecRes) (data : List Nat)
        (index : Nat) (amt : Option Nat) (e : FileEntry),
      arc.entries.get? index = Option.some e →
      e.offset + 2 ≤ data.length →
      detectCodec (data.getD e.offset 0) (data.getD (e.offset + 1) 0) =
        CompressionType.none →
      PSArc.print_file arc zd ld data index amt =
        PfResult.ok (window data e.offset e.length)) := by
  constructor
  · intro arc bs2 zd ld data index amt
    cases arc
    rfl
  · intro arc zd ld data index amt e hget hlen hdet
    unfold PSArc.print_file
    rw [hget]
    dsimp only
    rw [if_neg (by omega)]
    rw [hdet]

/-- C2 amended, witness: the C2 fixture's output is independent of the
block-size table and equals the verbatim `entry.length`-byte window. -/
theorem C2_amended_witness :
    (PSArc.print_file { psarcC2 with block_sizes := [123] } decNever decNever
        dataC2 0 Option.none =
      PSArc.print_file psarcC2 decNever decNever dataC2 0 Option.none) ∧
    psarcC2.entries.get? 0 = Option.some ⟨"", [], 0, 5, 0⟩ ∧
    detectCodec (dataC2.getD 0 0) (dataC2.getD 1 0) = CompressionType.none ∧
    PSArc.print_file psarcC2 decNever decNever dataC2 0 Option.none =
      PfResult.ok (window dataC2 0 5) :=
  ⟨C2_amended.1 psarcC2 [123] decNever decNever dataC2 0 Option.none,
   by decide, by decide,
   C2_amended.2 psarcC2 decNever decNever dataC2 0 Option.none
     ⟨"", [], 0, 5, 0⟩ (by decide) (by decide) (by decide)⟩

/-- C3 counterexample: on a concrete two-block ZLIB entry whose first block
decodes to exactly `want_len` bytes, the code (`print_file`, strict `>`
stop test) decodes a second block while the specified reader
(`printFileStopGe`, stop at `≥`) stops. -/
theorem C3_counterexample :
    PSArc.print_file psarcC3 dec777 decNever dataC3 0 (Option.some 3) ≠
      printFileStopGe psarcC3 dec777 decNever dataC3 0 (Option.some 3) := by
  decide

/-- C3 amended: after each block the loops stop exactly when the written
count is strictly greater than `want_len`; a block that makes the written
count equal to `want_len` does not stop the walk, and a further block is
decoded. -/
theorem C3_amended :
    (∀ (zd : List Nat → DecRes) (bs : Nat) (data : List Nat)
        (pos n amount written : Nat) (acc o : List Nat) (c : Nat),
      zd (window data pos bs) = DecRes.ok o c →
      (amount < written + o.length →
        zlibBlocks zd bs data pos (n + 1) amount written acc =
          PfResult.ok (acc ++ o)) ∧
      (written + o.length ≤ amount →
        zlibBlocks zd bs data pos (n + 1) amount written acc =
          zlibBlocks zd bs data (pos + min c (window data pos bs).length) n
            amount (written + o.length) (acc ++ o))) ∧
    (∀ (ld : List Nat → DecRes) (bs : Nat) (data : List Nat)
        (pos n amount : Nat) (acc o : List Nat) (c : Nat),
      ld (window data pos bs) = DecRes.ok o c →
      (amount < (acc ++ o).length →
        lzmaBlocks ld bs data pos (n + 1) amount acc =
          PfResult.ok (acc ++ o)) ∧
      ((acc ++ o).length ≤ amount →
        lzmaBlocks ld bs data pos (n + 1) amount acc =
          lzmaBlocks ld bs data (pos + min c (window data pos bs).length) n
            amount (acc ++ o))) := by
  constructor
  · intro zd bs data pos n amount written acc o c hdec
    have h1 : zlibBlocks zd bs data pos (n + 1) amount written acc =
        match zd (window data pos bs) with
        | DecRes.fail => PfResult.ioError
        | DecRes.ok o c =>
          if amount < written + o.length then PfResult.ok (acc ++ o)
          else zlibBlocks zd bs data (pos + min c (window data pos bs).length)
            n amount (written + o.length) (acc ++ o) := rfl
    rw [h1, hdec]
    dsimp only
    constructor
    · intro hlt
      rw [if_pos hlt]
    · intro hle
      rw [if_neg (by omega)]
  · intro ld bs data pos n amount acc o c hdec
    have h1 : lzmaBlocks ld bs data pos (n + 1) amount acc =
        match ld (window data pos bs) with
        | DecRes.fail => PfResult.panicked
        | DecRes.ok o c =>
          if amount < (acc ++ o).length then PfResult.ok (acc ++ o)
          else lzmaBlocks ld bs data (pos + min c (window data pos bs).length)
            n amount (acc ++ o) := rfl
    rw [h1, hdec]
    dsimp only
    constructor
    · intro hlt
      rw [if_pos hlt]
    · intro hle
      rw [if_neg (by omega)]

/-- C3 amended, witness: a block that completes with the written count
exactly equal to `want_len` makes the ZLIB loop continue to the next
block. -/
theorem C3_amended_witness :
    dec7 (window [] 0 65536) = DecRes.ok [7] 0 ∧
    (1 : Nat) ≤ 1 ∧
    zlibBlocks dec7 65536 [] 0 1 1 0 [] =
      zlibBlocks dec7 65536 []
        (0 + min 0 (window [] 0 65536).length) 0 1 (0 + [7].length)
        ([] ++ [7]) :=
  ⟨by decide, by decide,
   (C3_amended.1 dec7 65536 [] 0 0 1 0 [] [7] 0 (by decide)).2 (by decide)⟩

/-- C4 counterexample: the uncompressed size of a full `U32` block is not
4294967295 in the code. -/
theorem C4_counterexample :
    BlockSizeType.U32.get_bitcount ≠ 4294967295 := by
  decide

/-- C4 amended: the parser accepts a block-width tag of 4294967295 (the
`U32` variant, also end to end on a concrete archive image), block-size
table elements are 4 bytes wide, and the uncompressed size of a full block
is 4294967296 (2^32), not 4294967295. -/
theorem C4_amended :
    parseBlockSizeType 4294967295 = Sum.inr BlockSizeType.U32 ∧
    BlockSizeType.U32.get_bytecount = 4 ∧
    BlockSizeType.U32.get_bitcount = 4294967296 ∧
    PSArc.openArchive decNever decNever dataC4 = OpenResult.ok arcC4 ∧
    arcC4.block_size = BlockSizeType.U32 := by
  refine ⟨by decide, by decide, by decide, ?_, by decide⟩
  decide

/-- C5: code bug surfaced on a concrete one-file tree — `lookup` of a
regular file answers `perm = 0o755, nlink = 2` (the folder attributes)
while `getattr` of the same inode answers `perm = 0o644, nlink = 1`, so
the two operations disagree, contradicting the claim (and spec property
6) that they return identical attributes. -/
theorem C5_lookup_getattr_mismatch :
    PSArcFS.lookup fsC5 1 "f" = EntryReply.entry (fileAttrLookup 2 5) ∧
    PSArcFS.getattr fsC5 2 = AttrReply.attr (fileAttrGetattr 2 5) ∧
    (fileAttrLookup 2 5).perm = 0o755 ∧ (fileAttrLookup 2 5).nlink = 2 ∧
    (fileAttrGetattr 2 5).perm = 0o644 ∧ (fileAttrGetattr 2 5).nlink = 1 ∧
    fileAttrLookup 2 5 ≠ fileAttrGetattr 2 5 := by
  decide

/-- C6 counterexample: on a concrete root directory with one child, a
single full `readdir` page carries cookies `[1, 2, 2]` — the `..` entry and
the first child share cookie 2 — so cookies are not strictly increasing as
the claim states. -/
theorem C6_counterexample :
    PSArcFS.readdir fsC6 1 0 = ReaddirReply.entries dirListC6 ∧
    List.map DirEntry.cookie dirListC6 = [1, 2, 2] ∧
    ¬ List.Pairwise (fun a b : Nat => a < b) [1, 2, 2] := by
  decide

/-- C6 amended: `readdir` emits `.` at cookie 1 when `offset = 0`, `..` at
cookie 2 when `offset < 2`, and the `i`-th child at cookie `i + 2`
(skipping the first `offset` children); consequently cookies are not
strictly increasing — when the directory has a first child, `..` and that
child both receive cookie 2 — so paging from the last returned cookie is
not guaranteed to emit each child exactly once. -/
theorem C6_amended :
    ∀ (fs : PSArcFS) (ino : Nat) (kids : List Nat) (offset i k : Nat)
      (d : InodeData),
      fs.childrenOf.lookup ino = Option.some kids →
      kids.get? i = Option.some k →
      offset ≤ i →
      fs.files.lookup k = Option.some d →
      ∃ l, fs.readdir ino offset = ReaddirReply.entries l ∧
        DirEntry.mk k (i + 2) (inodeKind d) (inodeName d) ∈ l ∧
        (offset = 0 → DirEntry.mk ino 1 FsFileType.directory "." ∈ l) ∧
        (offset < 2 → fs.parentOf.lookup ino = Option.none →
          DirEntry.mk 1 2 FsFileType.directory ".." ∈ l) ∧
        (offset < 2 → fs.parentOf.lookup ino = Option.none → i = 0 →
          inodeName d ≠ ".." →
          ∃ e1 e2, e1 ∈ l ∧ e2 ∈ l ∧ e1 ≠ e2 ∧ e1.cookie = e2.cookie) := by
  intro fs ino kids offset i k d hkids hget hoff hlook
  have hchild : DirEntry.mk k (i + 2) (inodeKind d) (inodeName d) ∈
      readdirChildren fs offset kids 0 := by
    have := readdirChildren_mem fs offset kids i 0 k d hget
      (by omega) hlook
    simpa using this
  unfold PSArcFS.readdir
  rw [hkids]
  dsimp only
  refine ⟨_, rfl, ?_, ?_, ?_, ?_⟩
  · exact List.mem_append_right _ hchild
  · intro h0
    subst h0
    simp
  · intro hlt hp
    rw [hp]
    refine List.mem_append_left _ (List.mem_append_right _ ?_)
    simp [hlt]
  · intro hlt hp hi hname
    subst hi
    refine ⟨DirEntry.mk 1 2 FsFileType.directory "..",
      DirEntry.mk k (0 + 2) (inodeKind d) (inodeName d), ?_, ?_, ?_, rfl⟩
    · rw [hp]
      refine List.mem_append_left _ (List.mem_append_right _ ?_)
      simp [hlt]
    · exact List.mem_append_right _ hchild
    · intro he
      injection he with h1 h2 h3 h4
      exact hname h4.symm

/-- C6 amended, witness: the characterization applied to the concrete
one-child root directory. -/
theorem C6_amended_witness :
    fsC6.childrenOf.lookup 1 = Option.some [2] ∧
    ∃ l, PSArcFS.readdir fsC6 1 0 = ReaddirReply.entries l ∧
      DirEntry.mk 2 (0 + 2) (inodeKind (InodeData.archivedFile "f" 0))
        (inodeName (InodeData.archivedFile "f" 0)) ∈ l ∧
      (0 = 0 → DirEntry.mk 1 1 FsFileType.directory "." ∈ l) ∧
      (0 < 2 → fsC6.parentOf.lookup 1 = Option.none →
        DirEntry.mk 1 2 FsFileType.directory ".." ∈ l) ∧
      (0 < 2 → fsC6.parentOf.lookup 1 = Option.none → 0 = 0 →
        inodeName (InodeData.archivedFile "f" 0) ≠ ".." →
        ∃ e1 e2, e1 ∈ l ∧ e2 ∈ l ∧ e1 ≠ e2 ∧ e1.cookie = e2.cookie) :=
  ⟨by decide,
   C6_amended fsC6 1 [2] 0 0 2 (InodeData.archivedFile "f" 0) (by decide)
     (by decide) (by decide) (by decide)⟩

/-- C7 counterexample: on a concrete mounted state whose entry points past
the end of the archive, the decode fails with an I/O error and `read`
panics (the `.unwrap()` on `print_file`) instead of replying with the
generic I/O error the claim describes. -/
theorem C7_counterexample :
    (PSArcFS.read fsC7 2 0 5 decNever decNever).1 = ReadReply.panicked ∧
    (PSArcFS.read fsC7 2 0 5 decNever decNever).2 = fsC7 ∧
    ReadReply.panicked ≠ ReadReply.error eioCode := by
  decide

/-- C7 amended: when `print_file` fails with a `FormatError`/`IoError`
(or panics), `read` panics through its `.unwrap()` rather than replying
with an I/O error; the filesystem state — in particular the cache and the
tree — is returned unchanged by the failed read. -/
theorem C7_amended :
    ∀ (fs : PSArcFS) (ino offset size : Nat) (zd ld : List Nat → DecRes)
      (nm : String) (idx : Nat),
      fs.files.lookup ino = Option.some (InodeData.archivedFile nm idx) →
      fs.cache.lookup ino = Option.none →
      (fs.psarc.print_file zd ld fs.data idx (Option.some (offset + size)) =
          PfResult.ioError ∨
        fs.psarc.print_file zd ld fs.data idx (Option.some (offset + size)) =
          PfResult.panicked) →
      fs.read ino offset size zd ld = (ReadReply.panicked, fs) := by
  intro fs ino offset size zd ld nm idx hfile hcache herr
  have hmiss : fs.readMiss ino offset size zd ld =
      (ReadReply.panicked, fs) := by
    unfold PSArcFS.readMiss
    rw [hfile]
    dsimp only
    rcases herr with h | h
    · rw [h]
    · rw [h]
  unfold PSArcFS.read
  split
  · rw [hcache]
    exact hmiss
  · exact hmiss

/-- C7 amended, witness: the concrete truncated archive makes `read`
panic and leave the state unchanged. -/
theorem C7_amended_witness :
    fsC7.files.lookup 2 = Option.some (InodeData.archivedFile "f" 0) ∧
    fsC7.psarc.print_file decNever decNever fsC7.data 0
      (Option.some (0 + 5)) = PfResult.ioError ∧
    PSArcFS.read fsC7 2 0 5 decNever decNever = (ReadReply.panicked, fsC7) :=
  ⟨by decide, by decide,
   C7_amended fsC7 2 0 5 decNever decNever "f" 0 (by decide) (by decide)
     (Or.inl (by decide))⟩

/-- The second component of `readMiss` on a successful decode: the state,
with the cache populated exactly under the source's `offset == 0` and
`len > 16384` test. -/
theorem readMiss_snd (fs : PSArcFS) (ino offset size : Nat)
    (zd ld : List Nat → DecRes) (nm : String) (idx : Nat) (buf : List Nat)
    (hfile : fs.files.lookup ino =
      Option.some (InodeData.archivedFile nm idx))
    (hpf : fs.psarc.print_file zd ld fs.data idx
      (Option.some (offset + size)) = PfResult.ok buf) :
    (fs.readMiss ino offset size zd ld).2 =
      if offset = 0 ∧ 16384 < buf.length then
        { fs with cache := (ino, buf.take 16384) :: fs.cache }
      else fs := by
  unfold PSArcFS.readMiss
  rw [hfile]
  dsimp only
  rw [hpf]
  dsimp only
  split
  · rfl
  · rfl

/-- On a cache miss, `read` is the miss path. -/
theorem read_eq_readMiss (fs : PSArcFS) (ino offset size : Nat)
    (zd ld : List Nat → DecRes)
    (hcache : fs.cache.lookup ino = Option.none) :
    fs.read ino offset size zd ld = fs.readMiss ino offset size zd ld := by
  unfold PSArcFS.read
  split
  · rw [hcache]
  · rfl

/-- `print_file` on the C8 fixture, with the decoded block abstract so that
no 16384-element list is ever evaluated: the single ZLIB block's output is
returned whole whatever its length. -/
theorem printFile_fsC8 (zd : List Nat → DecRes) (o : List Nat)
    (h : zd (window [120, 218] 0 65536) = DecRes.ok o 2) :
    PSArc.print_file fsC8.psarc zd decNever fsC8.data 0
      (Option.some 16384) = PfResult.ok o := by
  have e0 : PSArc.print_file fsC8.psarc zd decNever fsC8.data 0
      (Option.some 16384) =
      zlibBlocks zd 65536 [120, 218] 0 1 16384 0 [] := rfl
  have e1 : zlibBlocks zd 65536 [120, 218] 0 1 16384 0 [] =
      (match zd (window [120, 218] 0 65536) with
       | DecRes.fail => PfResult.ioError
       | DecRes.ok o c =>
         if 16384 < 0 + o.length then PfResult.ok ([] ++ o)
         else zlibBlocks zd 65536 [120, 218]
           (0 + min c (window [120, 218] 0 65536).length) 0 16384
           (0 + o.length) ([] ++ o)) := rfl
  rw [e0, e1, h]
  dsimp only
  split
  · rw [List.nil_append]
  · calc zlibBlocks zd 65536 [120, 218]
          (0 + min 2 (window [120, 218] 0 65536).length) 0 16384
          (0 + o.length) ([] ++ o)
        = PfResult.ok ([] ++ o) := rfl
      _ = PfResult.ok o := by rw [List.nil_append]

/-- C8 counterexample: a concrete offset-0 read whose decode produces
exactly 16384 plaintext bytes does not populate the cache (the code tests
`len > 16384`, the claim says `≥`). -/
theorem C8_counterexample :
    PSArc.print_file fsC8.psarc dec16k decNever fsC8.data 0
      (Option.some 16384) = PfResult.ok (List.replicate 16384 7) ∧
    (List.replicate 16384 (7 : Nat)).length = 16384 ∧
    (PSArcFS.read fsC8 2 0 16384 dec16k decNever).2 = fsC8 := by
  have h1 : PSArc.print_file fsC8.psarc dec16k decNever fsC8.data 0
      (Option.some 16384) = PfResult.ok (List.replicate 16384 7) :=
    printFile_fsC8 dec16k (List.replicate 16384 7) rfl
  refine ⟨h1, List.length_replicate 16384 7, ?_⟩
  have h1' : PSArc.print_file fsC8.psarc dec16k decNever fsC8.data 0
      (Option.some (0 + 16384)) = PfResult.ok (List.replicate 16384 7) := h1
  have h2 := readMiss_snd fsC8 2 0 16384 dec16k decNever "f" 0
    (List.replicate 16384 7) (by decide) h1'
  rw [List.length_replicate] at h2
  rw [read_eq_readMiss fsC8 2 0 16384 dec16k decNever (by decide), h2,
    if_neg (fun h => absurd h.2 (by omega))]

/-- C8 amended: an offset-0 miss read populates the cache with the first
16384 bytes exactly when the total plaintext produced is strictly greater
than 16384 bytes; at 16384 or fewer bytes the cache is unchanged. -/
theorem C8_amended :
    ∀ (fs : PSArcFS) (ino size : Nat) (zd ld : List Nat → DecRes)
      (nm : String) (idx : Nat) (buf : List Nat),
      fs.files.lookup ino = Option.some (InodeData.archivedFile nm idx) →
      fs.cache.lookup ino = Option.none →
      fs.psarc.print_file zd ld fs.data idx (Option.some (0 + size)) =
        PfResult.ok buf →
      (16384 < buf.length →
        ((fs.read ino 0 size zd ld).2).cache =
          (ino, buf.take 16384) :: fs.cache) ∧
      (buf.length ≤ 16384 →
        ((fs.read ino 0 size zd ld).2).cache = fs.cache) := by
  intro fs ino size zd ld nm idx buf hfile hcache hpf
  have h2 := readMiss_snd fs ino 0 size zd ld nm idx buf hfile hpf
  have hread := read_eq_readMiss fs ino 0 size zd ld hcache
  constructor
  · intro hgt
    rw [hread, h2, if_pos ⟨rfl, hgt⟩]
  · intro hle
    rw [hread, h2, if_neg (fun h => absurd h.2 (by omega))]

/-- C8 amended, witness: a 5-byte offset-0 read leaves the cache
unchanged. -/
theorem C8_amended_witness :
    fsC8w.files.lookup 2 = Option.some (InodeData.archivedFile "f" 0) ∧
    fsC8w.psarc.print_file decNever decNever fsC8w.data 0
      (Option.some (0 + 5)) = PfResult.ok [9, 9, 9, 9, 9] ∧
    ([9, 9, 9, 9, 9] : List Nat).length ≤ 16384 ∧
    ((PSArcFS.read fsC8w 2 0 5 decNever decNever).2).cache = fsC8w.cache :=
  ⟨by decide, by decide, by decide,
   (C8_amended fsC8w 2 5 decNever decNever "f" 0 [9, 9, 9, 9, 9]
     (by decide) (by decide) (by decide)).2 (by decide)⟩

/-- C9: a read on an uncached archived file whose offset is strictly
greater than the entry's length panics (out-of-bounds slice of the decoded
buffer, whose length is at most the entry length) instead of replying with
an empty slice or an error. -/
theorem C9_read_past_length_panics :
    ∀ (fs : PSArcFS) (ino offset size : Nat) (zd ld : List Nat → DecRes)
      (nm : String) (idx : Nat) (e : FileEntry) (buf : List Nat),
      fs.files.lookup ino = Option.some (InodeData.archivedFile nm idx) →
      fs.cache.lookup ino = Option.none →
      fs.psarc.entries.get? idx = Option.some e →
      fs.psarc.print_file zd ld fs.data idx
        (Option.some (offset + size)) = PfResult.ok buf →
      buf.length ≤ e.length →
      e.length < offset →
      (fs.read ino offset size zd ld).1 = ReadReply.panicked := by
  intro fs ino offset size zd ld nm idx e buf hfile hcache hget hpf hble hlen
  unfold PSArcFS.read
  rw [if_neg (by omega)]
  unfold PSArcFS.readMiss
  rw [hfile]
  dsimp only
  rw [hpf]
  dsimp only
  rw [if_pos (by omega)]

/-- C9 witness: reading at offset 6 of a 5-byte file panics. -/
theorem C9_witness :
    fsC9.files.lookup 2 = Option.some (InodeData.archivedFile "f" 0) ∧
    fsC9.psarc.entries.get? 0 = Option.some ⟨"f", [], 0, 5, 0⟩ ∧
    fsC9.psarc.print_file decNever decNever fsC9.data 0
      (Option.some (6 + 1)) = PfResult.ok [9, 9, 9, 9, 9] ∧
    (PSArcFS.read fsC9 2 6 1 decNever decNever).1 = ReadReply.panicked :=
  ⟨by decide, by decide, by decide,
   C9_read_past_length_panics fsC9 2 6 1 decNever decNever "f" 0
     ⟨"f", [], 0, 5, 0⟩ [9, 9, 9, 9, 9] (by decide) (by decide) (by decide)
     (by decide) (by decide) (by decide)⟩

/-- C10: when the decoded manifest has at least `toc_entry_count` lines,
`open` panics with an out-of-bounds index while assigning names (the
synthetic manifest name plus the manifest lines exceed the entry vector);
with fewer lines, the surplus entries keep their empty names. -/
theorem C10_manifest_overflow :
    ∀ (zd ld : List Nat → DecRes) (data : List Nat) (arc : PSArc)
      (m : List Nat),
      PSArc.openParse data = OpenResult.ok arc →
      arc.entries.length = arc.toc_entry_count →
      (∀ e ∈ arc.entries, e.name = "") →
      arc.print_file zd ld data 0 Option.none = PfResult.ok m →
      (arc.toc_entry_count ≤ (rustLines m).length →
        PSArc.openArchive zd ld data = OpenResult.panicked) ∧
      ((rustLines m).length < arc.toc_entry_count →
        ∃ arc2, PSArc.openArchive zd ld data = OpenResult.ok arc2 ∧
          ∀ i e2, 1 + (rustLines m).length ≤ i →
            arc2.entries.get? i = Option.some e2 → e2.name = "") := by
  intro zd ld data arc m hopen hcount hnames hpf
  have hoa : PSArc.openArchive zd ld data = arc.parse_manifest zd ld data := by
    unfold PSArc.openArchive
    rw [hopen]
  have hpm : ∀ ns : List String,
      ns = manifestName arc.archive_flags :: (rustLines m).map bytesToStr →
      arc.parse_manifest zd ld data =
        if arc.entries.length < ns.length then OpenResult.panicked
        else OpenResult.ok { arc with entries := assignNames arc.entries ns } := by
    intro ns hns
    subst hns
    unfold PSArc.parse_manifest
    rw [hpf]
  rw [hoa, hpm _ rfl]
  constructor
  · intro hge
    rw [if_pos (by simp only [List.length_cons, List.length_map]; omega)]
  · intro hlt
    rw [if_neg (by simp only [List.length_cons, List.length_map]; omega)]
    refine ⟨_, rfl, ?_⟩
    intro i e2 hi hget2
    rw [assignNames_get?_of_le _ _ _
      (by simp only [List.length_cons, List.length_map]; omega)] at hget2
    exact hnames e2 (List.get?_mem hget2)

/-- C10 witness: a concrete one-entry archive whose stored manifest decodes
to one line makes `open` panic. -/
theorem C10_witness :
    PSArc.openParse dataC10 = OpenResult.ok arcC10 ∧
    arcC10.print_file decNever decNever dataC10 0 Option.none =
      PfResult.ok [97, 10] ∧
    (rustLines [97, 10]).length = 1 ∧
    PSArc.openArchive decNever decNever dataC10 = OpenResult.panicked :=
  ⟨by decide, by decide, by decide,
   (C10_manifest_overflow decNever decNever dataC10 arcC10 [97, 10]
     (by decide) (by decide) (by decide) (by decide)).1 (by decide)⟩
